import Mathlib

/-!
Shallow embedding of `src/order_book.rs` (crypto-exchange).

Modelling conventions:
* `f64` sizes, prices and volumes are embedded as exact rationals `ℚ`.
* `Uuid` values are embedded as `Nat`; since `Uuid::new_v4()` and
  `OffsetDateTime::now_utc()` draw on the environment, `Order::new` and
  `Limit::new` take the generated id (and timestamp) as explicit arguments.
* `Vec<Order>` is `List Order`; `Vec::swap_remove` is `swapRemove` below.
* The `HashMap<String, usize>` price index keyed by `price.to_string()` is
  embedded as an association list keyed by the price value itself
  (`f64::to_string` is injective on the finite values the program produces).
* `&mut self` methods returning `Result` become functions returning
  `Except String` of the new state; on the error paths the source performs
  no mutation before returning, so callers keep the old state.
-/

namespace CryptoExchange

inductive OrderType where
  | Bid
  | Ask
deriving DecidableEq

/-- Rust `struct Order` (`id`, `order_type`, `size`, `timestamp`, `limit_id`). -/
structure Order where
  id : Nat
  order_type : OrderType
  size : ℚ
  timestamp : Int
  limit_id : Option Nat
deriving DecidableEq

/-- Rust `Order::new`: fresh id and timestamp come from the environment and are
passed explicitly; no validation is performed on `size`. -/
def Order.new (id : Nat) (order_type : OrderType) (size : ℚ) (timestamp : Int) : Order :=
  { id := id, order_type := order_type, size := size, timestamp := timestamp, limit_id := none }

/-- Rust `struct Limit` (`id`, `price`, `orders`, `total_volume`). -/
structure Limit where
  id : Nat
  price : ℚ
  orders : List Order
  total_volume : ℚ
deriving DecidableEq

/-- Rust `Limit::new(price)`. -/
def Limit.new (id : Nat) (price : ℚ) : Limit :=
  { id := id, price := price, orders := [], total_volume := 0 }

/-- Rust `Limit::add_order`: sets the order's back-reference, bumps the
aggregate volume, appends the order. -/
def Limit.add_order (l : Limit) (o : Order) : Limit :=
  { l with
    total_volume := l.total_volume + o.size,
    orders := l.orders ++ [{ o with limit_id := some l.id }] }

/-- Rust `Vec::swap_remove(i)`: overwrite position `i` with the last element,
then pop the last element. -/
def swapRemove {α : Type} (xs : List α) (i : Nat) : List α :=
  match xs.getLast? with
  | none => []
  | some b => (xs.set i b).dropLast

/-- Rust `Limit::remove_order`: locate the order by id (`Iterator::position`),
`swap_remove` it, clear its back-reference, subtract its size from the
aggregate volume.  The removed order is returned alongside the new state (the
source drops it; returning it makes the cleared back-reference observable). -/
def Limit.remove_order (l : Limit) (order_id : Nat) : Except String (Limit × Order) :=
  match l.orders.findIdx? (fun x => x.id == order_id) with
  | some i =>
    match l.orders[i]? with
    | some o =>
      Except.ok
        ({ l with
            orders := swapRemove l.orders i,
            total_volume := l.total_volume - o.size },
         { o with limit_id := none })
    | none => Except.error ("Could not find order by id " ++ toString order_id)
  | none => Except.error ("Could not find order by id " ++ toString order_id)

/-- A single mutation on one `Limit`, for reasoning about operation sequences. -/
inductive LimitOp where
  | add (o : Order)
  | remove (order_id : Nat)

/-- Apply one `LimitOp`; a failing `remove_order` leaves the limit unchanged
(the source returns `Err` without mutating). -/
def Limit.applyOp (l : Limit) (op : LimitOp) : Limit :=
  match op with
  | LimitOp.add o => l.add_order o
  | LimitOp.remove oid =>
    match l.remove_order oid with
    | Except.ok (l2, _) => l2
    | Except.error _ => l

def Limit.applyOps (l : Limit) (ops : List LimitOp) : Limit :=
  ops.foldl Limit.applyOp l

/-- The volume invariant: `total_volume` equals the sum of the member sizes. -/
def volumeOk (l : Limit) : Prop :=
  l.total_volume = (l.orders.map Order.size).sum

/-- Rust `struct OrderBook`: `HashMap<OrderType, Vec<Limit>>` and
`HashMap<OrderType, HashMap<String, usize>>`; `OrderBook::new` populates both
maps for both variants, so each is total in the side. -/
structure OrderBook where
  limits : OrderType → List Limit
  limits_by_price : OrderType → List (ℚ × Nat)

/-- Rust `OrderBook::new`: empty limit vector and empty price index per side. -/
def OrderBook.new : OrderBook :=
  { limits := fun _ => [], limits_by_price := fun _ => [] }

/-- `HashMap::get` on the embedded price index. -/
def lookupPrice (m : List (ℚ × Nat)) (p : ℚ) : Option Nat :=
  match m with
  | [] => none
  | (k, v) :: rest => if k = p then some v else lookupPrice rest p

/-- Point update of a per-side table (`HashMap::get_mut` followed by mutation). -/
def updFun {α : Type} (f : OrderType → α) (t : OrderType) (v : α) : OrderType → α :=
  fun s => if s = t then v else f s

/-- Rust `OrderBook::add_order`: look the price up in the side's index; admit
into the existing limit at the stored position, or create a new limit, push it,
and register its index under the price key.  The fresh limit's id is passed
explicitly (environment). -/
def OrderBook.add_order (b : OrderBook) (limit_id : Nat) (price : ℚ) (order : Order) :
    Except String OrderBook :=
  let limits := b.limits order.order_type
  let price_to_limit_idx_map := b.limits_by_price order.order_type
  match lookupPrice price_to_limit_idx_map price with
  | some limit_idx =>
    match limits[limit_idx]? with
    | some limit =>
      Except.ok
        { b with
          limits := updFun b.limits order.order_type (limits.set limit_idx (limit.add_order order)) }
    | none => Except.error ("Limit index " ++ toString limit_idx ++ " is invalid for price")
  | none =>
    let limit := (Limit.new limit_id price).add_order order
    let new_limit_idx := limits.length
    Except.ok
      { b with
        limits := updFun b.limits order.order_type (limits ++ [limit]),
        limits_by_price :=
          updFun b.limits_by_price order.order_type
            ((price, new_limit_idx) :: price_to_limit_idx_map) }

/-- One `OrderBook::add_order` call with its environment-supplied fresh id. -/
structure BookOp where
  limit_id : Nat
  price : ℚ
  order : Order

/-- Apply one book operation; a failing call leaves the book unchanged. -/
def OrderBook.applyOp (b : OrderBook) (op : BookOp) : OrderBook :=
  match b.add_order op.limit_id op.price op.order with
  | Except.ok b2 => b2
  | Except.error _ => b

def OrderBook.applyOps (b : OrderBook) (ops : List BookOp) : OrderBook :=
  ops.foldl OrderBook.applyOp b

/-- Index consistency: every price key stored in a side's index resolves to a
valid position in that side's limit vector, and the limit there carries
exactly that price. -/
def indexOk (b : OrderBook) : Prop :=
  ∀ side : OrderType, ∀ pr : ℚ, ∀ idx : Nat,
    (pr, idx) ∈ b.limits_by_price side →
    ∃ l : Limit, (b.limits side)[idx]? = some l ∧ l.price = pr

/-! ### Test fixture from the source (`successfully_removes_a_buy_order_from_a_limit`) -/

/-- The limit built by the source's own test: Bid orders of sizes 5, 8, 10 at
price 10000, with ids 1, 2, 3 standing in for the generated uuids. -/
def scenarioLimit : Limit :=
  (((Limit.new 100 10000).add_order (Order.new 1 OrderType.Bid 5 0)).add_order
      (Order.new 2 OrderType.Bid 8 0)).add_order (Order.new 3 OrderType.Bid 10 0)

/-! ### List helper lemmas -/

lemma sum_map_eraseIdx {α : Type} (f : α → ℚ) :
    ∀ (xs : List α) (i : Nat) (o : α), xs[i]? = some o →
      ((xs.eraseIdx i).map f).sum = (xs.map f).sum - f o := by
  intro xs
  induction xs with
  | nil => intro i o h; simp at h
  | cons x xs ih =>
    intro i o h
    cases i with
    | zero =>
      simp only [List.getElem?_cons_zero, Option.some.injEq] at h
      subst h
      simp only [List.eraseIdx_cons_zero, List.map_cons, List.sum_cons]
      ring
    | succ i =>
      simp only [List.getElem?_cons_succ] at h
      simp only [List.eraseIdx_cons_succ, List.map_cons, List.sum_cons, ih i o h]
      ring

lemma map_eraseIdx {α β : Type} (f : α → β) :
    ∀ (xs : List α) (i : Nat), (xs.eraseIdx i).map f = (xs.map f).eraseIdx i := by
  intro xs
  induction xs with
  | nil => intro i; simp
  | cons x xs ih =>
    intro i
    cases i with
    | zero => simp
    | succ i => simp [ih i]

lemma not_mem_eraseIdx_of_nodup {α : Type} [DecidableEq α] :
    ∀ (xs : List α) (i : Nat) (v : α), xs.Nodup → xs[i]? = some v → v ∉ xs.eraseIdx i := by
  intro xs
  induction xs with
  | nil => intro i v _ h; simp at h
  | cons x xs ih =>
    intro i v hnd h
    cases i with
    | zero =>
      simp only [List.getElem?_cons_zero, Option.some.injEq] at h
      subst h
      simp only [List.eraseIdx_cons_zero]
      exact (List.nodup_cons.mp hnd).1
    | succ i =>
      simp only [List.getElem?_cons_succ] at h
      simp only [List.eraseIdx_cons_succ, List.mem_cons, not_or]
      constructor
      · intro hv
        subst hv
        exact (List.nodup_cons.mp hnd).1 (List.getElem?_mem h)
      · exact ih i v (List.nodup_cons.mp hnd).2 h

lemma set_perm_eraseIdx_append {α : Type} (b : α) :
    ∀ (ys : List α) (i : Nat), i < ys.length →
      (ys.set i b).Perm (ys.eraseIdx i ++ [b]) := by
  intro ys
  induction ys with
  | nil => intro i h; simp at h
  | cons y ys ih =>
    intro i h
    cases i with
    | zero =>
      simp only [List.set_cons_zero, List.eraseIdx_cons_zero]
      exact (List.perm_append_singleton b ys).symm
    | succ i =>
      simp only [List.set_cons_succ, List.eraseIdx_cons_succ, List.cons_append]
      exact List.Perm.cons y (ih i (by simpa using h))

lemma swapRemove_concat {α : Type} (ys : List α) (b : α) (i : Nat) :
    swapRemove (ys ++ [b]) i = if i = ys.length then ys else ys.set i b := by
  have h0 : swapRemove (ys ++ [b]) i = ((ys ++ [b]).set i b).dropLast := by
    unfold swapRemove
    rw [List.getLast?_concat]
  rw [h0]
  by_cases h : i = ys.length
  · subst h
    rw [if_pos rfl, List.set_append_right _ _ (Nat.le_refl _)]
    simp
  · rw [if_neg h]
    rcases Nat.lt_or_ge i ys.length with hlt | hge
    · rw [List.set_append_left _ _ hlt, List.dropLast_concat]
    · have hgt : ys.length < i := Nat.lt_of_le_of_ne hge (fun e => h e.symm)
      rw [List.set_append_right _ _ (Nat.le_of_lt hgt)]
      have h1 : ([b].set (i - ys.length) b) = [b] := by
        have h2 : i - ys.length ≠ 0 := by omega
        cases he : i - ys.length with
        | zero => exact absurd he h2
        | succ k => simp
      rw [h1, List.dropLast_concat, List.set_eq_of_length_le hge]

lemma swapRemove_perm {α : Type} (xs : List α) (i : Nat) (h : i < xs.length) :
    (swapRemove xs i).Perm (xs.eraseIdx i) := by
  have hne : xs ≠ [] := by intro e; subst e; simp at h
  obtain ⟨ys, b, rfl⟩ : ∃ ys b, xs = ys ++ [b] :=
    ⟨xs.dropLast, xs.getLast hne, (List.dropLast_concat_getLast hne).symm⟩
  rw [swapRemove_concat]
  by_cases hi : i = ys.length
  · subst hi
    rw [if_pos rfl, List.eraseIdx_append_of_length_le (Nat.le_refl _)]
    simp
  · have hlt : i < ys.length := by
      have h2 := h
      simp only [List.length_append, List.length_cons, List.length_nil] at h2
      omega
    rw [if_neg hi, List.eraseIdx_append_of_lt_length hlt]
    exact set_perm_eraseIdx_append b ys i hlt

lemma swapRemove_last {α : Type} (xs : List α) (i : Nat) (h : i + 1 = xs.length) :
    swapRemove xs i = xs.eraseIdx i := by
  have hne : xs ≠ [] := by intro e; subst e; simp at h
  obtain ⟨ys, b, rfl⟩ : ∃ ys b, xs = ys ++ [b] :=
    ⟨xs.dropLast, xs.getLast hne, (List.dropLast_concat_getLast hne).symm⟩
  have hi : i = ys.length := by
    have h2 := h
    simp only [List.length_append, List.length_cons, List.length_nil] at h2
    omega
  subst hi
  rw [swapRemove_concat, if_pos rfl, List.eraseIdx_append_of_length_le (Nat.le_refl _)]
  simp

/-! ### Characterisation of `Limit.remove_order` -/

lemma remove_order_ok (l : Limit) (oid i : Nat) (o : Order)
    (hf : l.orders.findIdx? (fun x => x.id == oid) = some i)
    (hg : l.orders[i]? = some o) :
    l.remove_order oid =
      Except.ok
        ({ l with
            orders := swapRemove l.orders i,
            total_volume := l.total_volume - o.size },
         { o with limit_id := none }) := by
  simp only [Limit.remove_order, hf, hg]

lemma remove_order_error (l : Limit) (oid : Nat)
    (hf : l.orders.findIdx? (fun x => x.id == oid) = none) :
    l.remove_order oid = Except.error ("Could not find order by id " ++ toString oid) := by
  simp only [Limit.remove_order, hf]

lemma findIdx_id_none_iff (l : List Order) (oid : Nat) :
    l.findIdx? (fun x => x.id == oid) = none ↔ ∀ o ∈ l, o.id ≠ oid := by
  simp only [List.findIdx?_eq_none_iff, beq_eq_false_iff_ne]

lemma findIdx_id_some_of_mem (l : List Order) (oid : Nat)
    (h : ∃ o ∈ l, o.id = oid) : ∃ i, l.findIdx? (fun x => x.id == oid) = some i := by
  cases hf : l.findIdx? (fun x => x.id == oid) with
  | some i => exact ⟨i, rfl⟩
  | none =>
    rw [findIdx_id_none_iff] at hf
    obtain ⟨o, hm, he⟩ := h
    exact absurd he (hf o hm)

lemma findIdx_id_found (l : List Order) (oid i : Nat)
    (hf : l.findIdx? (fun x => x.id == oid) = some i) :
    ∃ o, l[i]? = some o ∧ o.id = oid ∧ i < l.length := by
  obtain ⟨hlt, hp, -⟩ := List.findIdx?_eq_some_iff_getElem.mp hf
  exact ⟨l[i], List.getElem?_eq_getElem hlt, beq_iff_eq.mp hp, hlt⟩

/-! ### Volume invariant preservation -/

lemma volumeOk_add (l : Limit) (h : volumeOk l) (o : Order) : volumeOk (l.add_order o) := by
  unfold volumeOk Limit.add_order at *
  simp only [List.map_append, List.sum_append, List.map_cons, List.map_nil, List.sum_cons,
    List.sum_nil, add_zero]
  rw [h]

lemma volumeOk_remove (l : Limit) (h : volumeOk l) (oid : Nat) (l2 : Limit) (r : Order)
    (hok : l.remove_order oid = Except.ok (l2, r)) : volumeOk l2 := by
  cases hf : l.orders.findIdx? (fun x => x.id == oid) with
  | none =>
    rw [remove_order_error l oid hf] at hok
    exact absurd hok (by simp)
  | some i =>
    obtain ⟨o, hg, -, hlt⟩ := findIdx_id_found l.orders oid i hf
    rw [remove_order_ok l oid i o hf hg] at hok
    simp only [Except.ok.injEq, Prod.mk.injEq] at hok
    obtain ⟨h1, -⟩ := hok
    subst h1
    show l.total_volume - o.size = ((swapRemove l.orders i).map Order.size).sum
    rw [((swapRemove_perm l.orders i hlt).map Order.size).sum_eq,
      sum_map_eraseIdx Order.size l.orders i o hg, h]

lemma volumeOk_applyOp (l : Limit) (h : volumeOk l) (op : LimitOp) : volumeOk (l.applyOp op) := by
  cases op with
  | add o => exact volumeOk_add l h o
  | remove oid =>
    show volumeOk
      (match l.remove_order oid with
        | Except.ok (l2, _) => l2
        | Except.error _ => l)
    cases hok : l.remove_order oid with
    | ok p => exact volumeOk_remove l h oid p.1 p.2 (by rw [hok])
    | error e => exact h

/-! ### Index consistency preservation -/

lemma add_order_existing (b : OrderBook) (lid : Nat) (p : ℚ) (o : Order) (i : Nat) (limit : Limit)
    (hl : lookupPrice (b.limits_by_price o.order_type) p = some i)
    (hg : (b.limits o.order_type)[i]? = some limit) :
    b.add_order lid p o =
      Except.ok
        { b with
          limits := updFun b.limits o.order_type
            ((b.limits o.order_type).set i (limit.add_order o)) } := by
  simp only [OrderBook.add_order, hl, hg]

lemma add_order_existing_invalid (b : OrderBook) (lid : Nat) (p : ℚ) (o : Order) (i : Nat)
    (hl : lookupPrice (b.limits_by_price o.order_type) p = some i)
    (hg : (b.limits o.order_type)[i]? = none) :
    b.add_order lid p o =
      Except.error ("Limit index " ++ toString i ++ " is invalid for price") := by
  simp only [OrderBook.add_order, hl, hg]

lemma add_order_fresh (b : OrderBook) (lid : Nat) (p : ℚ) (o : Order)
    (hl : lookupPrice (b.limits_by_price o.order_type) p = none) :
    b.add_order lid p o =
      Except.ok
        { b with
          limits := updFun b.limits o.order_type
            (b.limits o.order_type ++ [(Limit.new lid p).add_order o]),
          limits_by_price := updFun b.limits_by_price o.order_type
            ((p, (b.limits o.order_type).length) :: b.limits_by_price o.order_type) } := by
  simp only [OrderBook.add_order, hl]

lemma indexOk_new : indexOk OrderBook.new := by
  intro side pr idx h
  simp [OrderBook.new] at h

lemma indexOk_applyOp (b : OrderBook) (h : indexOk b) (op : BookOp) :
    indexOk (b.applyOp op) := by
  show indexOk
    (match b.add_order op.limit_id op.price op.order with
      | Except.ok b2 => b2
      | Except.error _ => b)
  cases hl : lookupPrice (b.limits_by_price op.order.order_type) op.price with
  | some limit_idx =>
    cases hg : (b.limits op.order.order_type)[limit_idx]? with
    | some limit =>
      rw [add_order_existing b op.limit_id op.price op.order limit_idx limit hl hg]
      have hlen : limit_idx < (b.limits op.order.order_type).length :=
        (List.getElem?_eq_some_iff.mp hg).1
      intro side pr idx hm
      have hm2 : (pr, idx) ∈ b.limits_by_price side := hm
      obtain ⟨l, hg2, hp⟩ := h side pr idx hm2
      by_cases hs : side = op.order.order_type
      · by_cases hij : idx = limit_idx
        · have hll : l = limit := by
            rw [hs, hij] at hg2
            rw [hg2] at hg
            exact Option.some_inj.mp hg
          refine ⟨limit.add_order op.order, ?_, ?_⟩
          · show ((updFun b.limits op.order.order_type
                ((b.limits op.order.order_type).set limit_idx
                  (limit.add_order op.order))) side)[idx]? = some (limit.add_order op.order)
            rw [hs, hij]
            simp [updFun, List.getElem?_set_self hlen]
          · show (limit.add_order op.order).price = pr
            have hq : (limit.add_order op.order).price = limit.price := rfl
            rw [hq, ← hll, hp]
        · refine ⟨l, ?_, hp⟩
          show ((updFun b.limits op.order.order_type
              ((b.limits op.order.order_type).set limit_idx
                (limit.add_order op.order))) side)[idx]? = some l
          rw [hs]
          simp only [updFun, eq_self_iff_true, if_true]
          rw [List.getElem?_set_ne (fun e => hij e.symm)]
          exact hs ▸ hg2
      · refine ⟨l, ?_, hp⟩
        show ((updFun b.limits op.order.order_type
            ((b.limits op.order.order_type).set limit_idx
              (limit.add_order op.order))) side)[idx]? = some l
        simp only [updFun, if_neg hs]
        exact hg2
    | none =>
      rw [add_order_existing_invalid b op.limit_id op.price op.order limit_idx hl hg]
      exact h
  | none =>
    rw [add_order_fresh b op.limit_id op.price op.order hl]
    intro side pr idx hm
    by_cases hs : side = op.order.order_type
    · have hm2 : (pr, idx) ∈ (op.price, (b.limits op.order.order_type).length) ::
          b.limits_by_price op.order.order_type := by
        have hthis : (pr, idx) ∈ (updFun b.limits_by_price op.order.order_type
            ((op.price, (b.limits op.order.order_type).length) ::
              b.limits_by_price op.order.order_type)) side := hm
        rw [hs] at hthis
        simpa [updFun] using hthis
      rcases List.mem_cons.mp hm2 with he | hm3
      · have hpr : pr = op.price := congrArg Prod.fst he
        have hidx : idx = (b.limits op.order.order_type).length := congrArg Prod.snd he
        refine ⟨(Limit.new op.limit_id op.price).add_order op.order, ?_, ?_⟩
        · show ((updFun b.limits op.order.order_type
              (b.limits op.order.order_type ++
                [(Limit.new op.limit_id op.price).add_order op.order])) side)[idx]? =
            some ((Limit.new op.limit_id op.price).add_order op.order)
          rw [hs, hidx]
          simp only [updFun, eq_self_iff_true, if_true]
          exact List.getElem?_concat_length _ _
        · show ((Limit.new op.limit_id op.price).add_order op.order).price = pr
          rw [hpr]
          rfl
      · obtain ⟨l, hg2, hp⟩ := h op.order.order_type pr idx hm3
        refine ⟨l, ?_, hp⟩
        show ((updFun b.limits op.order.order_type
            (b.limits op.order.order_type ++
              [(Limit.new op.limit_id op.price).add_order op.order])) side)[idx]? = some l
        rw [hs]
        simp only [updFun, eq_self_iff_true, if_true]
        have hlen2 : idx < (b.limits op.order.order_type).length :=
          (List.getElem?_eq_some_iff.mp hg2).1
        rw [List.getElem?_append_left hlen2]
        exact hg2
    · have hm2 : (pr, idx) ∈ b.limits_by_price side := by
        have hthis : (pr, idx) ∈ (updFun b.limits_by_price op.order.order_type
            ((op.price, (b.limits op.order.order_type).length) ::
              b.limits_by_price op.order.order_type)) side := hm
        simpa [updFun, hs] using hthis
      obtain ⟨l, hg2, hp⟩ := h side pr idx hm2
      refine ⟨l, ?_, hp⟩
      show ((updFun b.limits op.order.order_type
          (b.limits op.order.order_type ++
            [(Limit.new op.limit_id op.price).add_order op.order])) side)[idx]? = some l
      simp only [updFun, if_neg hs]
      exact hg2

lemma indexOk_applyOps (b : OrderBook) (h : indexOk b) (ops : List BookOp) :
    indexOk (b.applyOps ops) := by
  induction ops generalizing b with
  | nil => exact h
  | cons op ops ih => exact ih (b.applyOp op) (indexOk_applyOp b h op)

/-! ### Claims -/

/-- C1: for every Limit satisfying the volume invariant (as every Limit the
program builds does, starting from `Limit::new` with volume 0 and no members),
after any finite sequence of `add_order` / `remove_order` operations the
Limit's `total_volume` equals the sum of the sizes of the orders currently in
its member sequence. -/
theorem c1_volume_conservation (l : Limit) (h : volumeOk l) (ops : List LimitOp) :
    volumeOk (l.applyOps ops) := by
  induction ops generalizing l with
  | nil => exact h
  | cons op ops ih => exact ih (l.applyOp op) (volumeOk_applyOp l h op)

/-- Witness for C1: a fresh limit, two admissions and one removal. -/
theorem c1_volume_conservation_witness :
    volumeOk ((Limit.new 7 10000).applyOps
      [LimitOp.add (Order.new 1 OrderType.Bid 5 0),
       LimitOp.add (Order.new 2 OrderType.Bid 8 0),
       LimitOp.remove 1]) :=
  c1_volume_conservation (Limit.new 7 10000) (by simp [volumeOk, Limit.new]) _

/-- C2: in every OrderBook reachable from `OrderBook::new` by `add_order`
calls, every price key stored in a side's price-to-index map maps to a valid
position of that side's Limit vector, and the Limit at that position carries
exactly that price — the index never references a nonexistent or stale
Limit. -/
theorem c2_index_consistency (ops : List BookOp) :
    indexOk (OrderBook.new.applyOps ops) :=
  indexOk_applyOps OrderBook.new indexOk_new ops

/-- C3 is false of the code: `remove_order` uses `Vec::swap_remove`, so
removing the first of three orders (ids 1, 2, 3) leaves the remaining members
as `[3, 2]`, which is not a subsequence of the original `[1, 2, 3]` — orders 2
and 3 have swapped their relative order. -/
theorem c3_counterexample :
    scenarioLimit.orders.map Order.id = [1, 2, 3] ∧
    (scenarioLimit.remove_order 1).map (fun p => p.1.orders.map Order.id) =
      Except.ok [3, 2] ∧
    ¬ ([3, 2] : List Nat).Sublist [1, 2, 3] :=
  ⟨rfl, rfl, by decide⟩

/-- C3 amended: a successful `remove_order` removes exactly the located member,
leaving the remaining members as a permutation of the original sequence minus
that member; the relative order of the survivors is only guaranteed when the
removed member was the last one (swap-with-last compaction). -/
theorem c3_swap_remove_behaviour (l : Limit) (oid : Nat) (l2 : Limit) (r : Order)
    (hok : l.remove_order oid = Except.ok (l2, r)) :
    ∃ i, l.orders.findIdx? (fun x => x.id == oid) = some i ∧
      l2.orders.Perm (l.orders.eraseIdx i) ∧
      (i + 1 = l.orders.length → l2.orders = l.orders.eraseIdx i) := by
  cases hf : l.orders.findIdx? (fun x => x.id == oid) with
  | none =>
    rw [remove_order_error l oid hf] at hok
    exact absurd hok (by simp)
  | some i =>
    obtain ⟨o, hg, -, hlt⟩ := findIdx_id_found l.orders oid i hf
    rw [remove_order_ok l oid i o hf hg] at hok
    simp only [Except.ok.injEq, Prod.mk.injEq] at hok
    obtain ⟨h1, -⟩ := hok
    subst h1
    exact ⟨i, rfl, swapRemove_perm l.orders i hlt,
      fun hlast => swapRemove_last l.orders i hlast⟩

/-- Witness for the amended C3: removing the last order of the fixture. -/
theorem c3_swap_remove_behaviour_witness :
    ∃ l2 r, scenarioLimit.remove_order 3 = Except.ok (l2, r) ∧
      ∃ i, scenarioLimit.orders.findIdx? (fun x => x.id == 3) = some i ∧
        l2.orders.Perm (scenarioLimit.orders.eraseIdx i) ∧
        (i + 1 = scenarioLimit.orders.length →
          l2.orders = scenarioLimit.orders.eraseIdx i) := by
  have hok : scenarioLimit.remove_order 3 =
      Except.ok
        ({ scenarioLimit with
            orders := swapRemove scenarioLimit.orders 2,
            total_volume := scenarioLimit.total_volume -
              ({ Order.new 3 OrderType.Bid 10 0 with limit_id := some 100 } : Order).size },
         { ({ Order.new 3 OrderType.Bid 10 0 with limit_id := some 100 } : Order) with
            limit_id := none }) :=
    remove_order_ok scenarioLimit 3 2
      ({ Order.new 3 OrderType.Bid 10 0 with limit_id := some 100 }) rfl rfl
  exact ⟨_, _, hok, c3_swap_remove_behaviour scenarioLimit 3 _ _ hok⟩

/-- C4: `OrderBook::add_order` admits into the existing Limit at the indexed
position when the side's price index has an entry for the price, and otherwise
creates a new Limit at that price containing the order, appends it, and
registers it in the side's index keyed by its exact price. -/
theorem c4_add_order_routing (b : OrderBook) (lid : Nat) (p : ℚ) (o : Order) :
    (∀ i limit, lookupPrice (b.limits_by_price o.order_type) p = some i →
      (b.limits o.order_type)[i]? = some limit →
      ∃ b2, b.add_order lid p o = Except.ok b2 ∧
        b2.limits_by_price = b.limits_by_price ∧
        b2.limits o.order_type = (b.limits o.order_type).set i (limit.add_order o) ∧
        (b2.limits o.order_type)[i]? = some (limit.add_order o)) ∧
    (lookupPrice (b.limits_by_price o.order_type) p = none →
      ∃ b2, b.add_order lid p o = Except.ok b2 ∧
        b2.limits o.order_type = b.limits o.order_type ++ [(Limit.new lid p).add_order o] ∧
        ((Limit.new lid p).add_order o).price = p ∧
        ((Limit.new lid p).add_order o).orders.map Order.id = [o.id] ∧
        lookupPrice (b2.limits_by_price o.order_type) p =
          some (b.limits o.order_type).length) := by
  constructor
  · intro i limit hl hg
    refine ⟨_, add_order_existing b lid p o i limit hl hg, rfl, ?_, ?_⟩
    · show (updFun b.limits o.order_type
        ((b.limits o.order_type).set i (limit.add_order o))) o.order_type = _
      simp [updFun]
    · have hlen : i < (b.limits o.order_type).length := (List.getElem?_eq_some_iff.mp hg).1
      show ((updFun b.limits o.order_type
        ((b.limits o.order_type).set i (limit.add_order o))) o.order_type)[i]? = _
      simp [updFun, List.getElem?_set_self hlen]
  · intro hl
    refine ⟨_, add_order_fresh b lid p o hl, ?_, rfl, rfl, ?_⟩
    · show (updFun b.limits o.order_type
        (b.limits o.order_type ++ [(Limit.new lid p).add_order o])) o.order_type = _
      simp [updFun]
    · show lookupPrice ((updFun b.limits_by_price o.order_type
        ((p, (b.limits o.order_type).length) :: b.limits_by_price o.order_type))
          o.order_type) p = _
      simp [updFun, lookupPrice]

/-- The one-limit book used to exercise C4's existing-price branch. -/
def witnessBook : OrderBook :=
  OrderBook.new.applyOp ⟨50, 10000, Order.new 1 OrderType.Bid 5 0⟩

/-- Witness for C4: both branches at concrete books. -/
theorem c4_add_order_routing_witness :
    (∃ b2, witnessBook.add_order 51 10000 (Order.new 2 OrderType.Bid 8 0) = Except.ok b2 ∧
      b2.limits_by_price = witnessBook.limits_by_price ∧
      b2.limits OrderType.Bid = (witnessBook.limits OrderType.Bid).set 0
        (((Limit.new 50 10000).add_order (Order.new 1 OrderType.Bid 5 0)).add_order
          (Order.new 2 OrderType.Bid 8 0)) ∧
      (b2.limits OrderType.Bid)[0]? = some (((Limit.new 50 10000).add_order
        (Order.new 1 OrderType.Bid 5 0)).add_order (Order.new 2 OrderType.Bid 8 0))) ∧
    (∃ b2, OrderBook.new.add_order 50 10000 (Order.new 1 OrderType.Bid 5 0) = Except.ok b2 ∧
      b2.limits OrderType.Bid = OrderBook.new.limits OrderType.Bid ++
        [(Limit.new 50 10000).add_order (Order.new 1 OrderType.Bid 5 0)] ∧
      ((Limit.new 50 10000).add_order (Order.new 1 OrderType.Bid 5 0)).price = 10000 ∧
      ((Limit.new 50 10000).add_order (Order.new 1 OrderType.Bid 5 0)).orders.map Order.id
        = [1] ∧
      lookupPrice (b2.limits_by_price OrderType.Bid) 10000 =
        some (OrderBook.new.limits OrderType.Bid).length) :=
  ⟨(c4_add_order_routing witnessBook 51 10000 (Order.new 2 OrderType.Bid 8 0)).1 0
      ((Limit.new 50 10000).add_order (Order.new 1 OrderType.Bid 5 0)) rfl rfl,
   (c4_add_order_routing OrderBook.new 50 10000 (Order.new 1 OrderType.Bid 5 0)).2 rfl⟩

/-- C5: the source's test fixture — admitting Bid orders of sizes 5, 8, 10 at
price 10000 gives volume 23 and member count 3; removing the size-8 order by
its identity gives volume 15, member count 2, remaining sizes `[5, 10]` in
arrival order. -/
theorem c5_scenario :
    scenarioLimit.total_volume = 23 ∧ scenarioLimit.orders.length = 3 ∧
    ∃ l2 r, scenarioLimit.remove_order 2 = Except.ok (l2, r) ∧
      l2.total_volume = 15 ∧ l2.orders.length = 2 ∧
      l2.orders.map Order.size = [5, 10] := by
  refine ⟨by norm_num [scenarioLimit, Limit.new, Limit.add_order, Order.new], rfl, ?_⟩
  refine ⟨_, _, remove_order_ok scenarioLimit 2 1
    ({ Order.new 2 OrderType.Bid 8 0 with limit_id := some 100 }) rfl rfl, ?_, rfl, rfl⟩
  show scenarioLimit.total_volume -
      ({ Order.new 2 OrderType.Bid 8 0 with limit_id := some 100 } : Order).size = 15
  norm_num [scenarioLimit, Limit.new, Limit.add_order, Order.new]

/-- C6: `remove_order` fails (with the "Could not find order by id" error) iff
no member carries the requested identity; when a member does, it returns
success, removing that member, clearing its back-reference, and decreasing
`total_volume` by its size. -/
theorem c6_remove_order_contract (l : Limit) (oid : Nat) :
    ((∃ e, l.remove_order oid = Except.error e) ↔ ∀ o ∈ l.orders, o.id ≠ oid) ∧
    ((∃ o ∈ l.orders, o.id = oid) →
      ∃ i o l2, l.orders.findIdx? (fun x => x.id == oid) = some i ∧
        l.orders[i]? = some o ∧ o.id = oid ∧
        l.remove_order oid = Except.ok (l2, { o with limit_id := none }) ∧
        l2.total_volume = l.total_volume - o.size ∧
        l2.orders.Perm (l.orders.eraseIdx i) ∧
        l2.orders.length + 1 = l.orders.length) := by
  constructor
  · constructor
    · rintro ⟨e, he⟩ o hm heq
      obtain ⟨i, hf⟩ := findIdx_id_some_of_mem l.orders oid ⟨o, hm, heq⟩
      obtain ⟨o2, hg, -, -⟩ := findIdx_id_found l.orders oid i hf
      rw [remove_order_ok l oid i o2 hf hg] at he
      exact absurd he (by simp)
    · intro hall
      exact ⟨_, remove_order_error l oid ((findIdx_id_none_iff l.orders oid).mpr hall)⟩
  · intro hmem
    obtain ⟨i, hf⟩ := findIdx_id_some_of_mem l.orders oid hmem
    obtain ⟨o, hg, hid, hlt⟩ := findIdx_id_found l.orders oid i hf
    refine ⟨i, o, _, hf, hg, hid, remove_order_ok l oid i o hf hg, rfl, ?_, ?_⟩
    · exact swapRemove_perm l.orders i hlt
    · show (swapRemove l.orders i).length + 1 = l.orders.length
      rw [(swapRemove_perm l.orders i hlt).length_eq]
      exact List.length_eraseIdx_add_one hlt

/-- Witness for C6: removing the present id 2 from the fixture. -/
theorem c6_remove_order_contract_witness :
    ∃ i o l2, scenarioLimit.orders.findIdx? (fun x => x.id == 2) = some i ∧
      scenarioLimit.orders[i]? = some o ∧ o.id = 2 ∧
      scenarioLimit.remove_order 2 = Except.ok (l2, { o with limit_id := none }) ∧
      l2.total_volume = scenarioLimit.total_volume - o.size ∧
      l2.orders.Perm (scenarioLimit.orders.eraseIdx i) ∧
      l2.orders.length + 1 = scenarioLimit.orders.length :=
  (c6_remove_order_contract scenarioLimit 2).2
    ⟨{ Order.new 2 OrderType.Bid 8 0 with limit_id := some 100 }, by decide, rfl⟩

/-- C7: on a Limit whose member ids are distinct (as uuid-v4 generation
guarantees) and that contains the identity, cancelling twice yields success
then an "order not found" error — never a second silent success. -/
theorem c7_idempotent_cancel (l : Limit) (oid : Nat)
    (hnd : (l.orders.map Order.id).Nodup)
    (hmem : oid ∈ l.orders.map Order.id) :
    ∃ l2 r e, l.remove_order oid = Except.ok (l2, r) ∧
      l2.remove_order oid = Except.error e := by
  obtain ⟨o0, hm0, hid0⟩ := List.mem_map.mp hmem
  obtain ⟨i, hf⟩ := findIdx_id_some_of_mem l.orders oid ⟨o0, hm0, hid0⟩
  obtain ⟨o, hg, hid, hlt⟩ := findIdx_id_found l.orders oid i hf
  refine ⟨_, _, "Could not find order by id " ++ toString oid,
    remove_order_ok l oid i o hf hg, ?_⟩
  apply remove_order_error
  rw [findIdx_id_none_iff]
  intro o2 hm2 heq
  have hperm := (swapRemove_perm l.orders i hlt).map Order.id
  rw [map_eraseIdx] at hperm
  have hgi : (l.orders.map Order.id)[i]? = some oid := by
    rw [List.getElem?_map, hg]
    simp [hid]
  exact not_mem_eraseIdx_of_nodup (l.orders.map Order.id) i oid hnd hgi
    (hperm.mem_iff.mp (List.mem_map.mpr ⟨o2, hm2, heq⟩))

/-- Witness for C7: double cancellation of id 2 on the fixture. -/
theorem c7_idempotent_cancel_witness :
    ∃ l2 r e, scenarioLimit.remove_order 2 = Except.ok (l2, r) ∧
      l2.remove_order 2 = Except.error e :=
  c7_idempotent_cancel scenarioLimit 2 (by decide) (by decide)

/-- C8 is false of the code: `Order::new` performs no size validation and
returns no `Result`; it happily constructs an order of size −1 (a non-positive
size), with no error of any kind. -/
theorem c8_counterexample :
    (-1 : ℚ) ≤ 0 ∧ (Order.new 5 OrderType.Bid (-1) 0).size = -1 ∧
      (Order.new 5 OrderType.Bid (-1) 0).limit_id = none :=
  ⟨by norm_num, rfl, rfl⟩

/-- C8 amended: `Order::new` is total and unvalidated — for every side, size
and timestamp it succeeds, returning a detached order carrying exactly the
given attributes. -/
theorem c8_order_new_no_validation (oid : Nat) (ot : OrderType) (s : ℚ) (t : Int) :
    (Order.new oid ot s t).size = s ∧ (Order.new oid ot s t).order_type = ot ∧
      (Order.new oid ot s t).id = oid ∧ (Order.new oid ot s t).limit_id = none :=
  ⟨rfl, rfl, rfl, rfl⟩

/-- C10: a failing `remove_order` (identity absent) returns the
"order not found" error and leaves the Limit completely unchanged. -/
theorem c10_remove_order_failure_atomic (l : Limit) (oid : Nat)
    (h : ∀ o ∈ l.orders, o.id ≠ oid) :
    l.remove_order oid = Except.error ("Could not find order by id " ++ toString oid) ∧
    l.applyOp (LimitOp.remove oid) = l := by
  have hf : l.orders.findIdx? (fun x => x.id == oid) = none :=
    (findIdx_id_none_iff l.orders oid).mpr h
  have he := remove_order_error l oid hf
  refine ⟨he, ?_⟩
  show (match l.remove_order oid with
    | Except.ok (l2, _) => l2
    | Except.error _ => l) = l
  rw [he]

/-- Witness for C10: cancelling an absent id 99 on the fixture. -/
theorem c10_remove_order_failure_atomic_witness :
    scenarioLimit.remove_order 99 =
      Except.error ("Could not find order by id " ++ toString 99) ∧
    scenarioLimit.applyOp (LimitOp.remove 99) = scenarioLimit :=
  c10_remove_order_failure_atomic scenarioLimit 99 (by decide)

end CryptoExchange
